import Mathlib

/-!
Shallow embedding of the analog racing controller server
(`racing_server.py`): the shared control state and its clamping, the
message protocol handler, the session registry with its
disconnect-triggered reset, and the keyboard and vjoy output adapter
variants.  Machine floats of the source are modelled as rationals;
Python `int()` truncation is modelled by `truncQ`.
-/

namespace RacingServer

/-- JSON scalar values as seen by the update handler after `json.loads`.
`num` covers JSON numbers, `bool` covers JSON booleans (numeric in
Python, where `True == 1`), and `nonNumeric` covers every other JSON
value (strings, null, arrays, objects), all of which raise `TypeError`
when fed to `min`/`max` against a float or divided by `100.0`. -/
inductive JValue where
  | num : ℚ → JValue
  | bool : Bool → JValue
  | nonNumeric : JValue
deriving DecidableEq

/-- Numeric view of a JSON value: Python arithmetic and comparisons
accept numbers and booleans and raise `TypeError` otherwise. -/
def JValue.asNum : JValue → Option ℚ
  | .num q => some q
  | .bool b => some (if b then 1 else 0)
  | .nonNumeric => none

/-- Keys that the `update` handler looks up in the `data` mapping. -/
inductive UpdateField where
  | steering | accelerator | brake
deriving DecidableEq

/-- The `data` mapping of an `update` message, restricted to the keys
the handler reads (`'steering' in payload` is lookup success). -/
abbrev Payload := List (UpdateField × JValue)

/-- The `command` field of a decoded message.  `unknown` stands for a
missing `command` key or any command string other than the six the
handler compares against (such a message falls through every branch). -/
inductive Command where
  | update | handbrake_press | handbrake_release
  | horn_press | horn_release | reset | unknown
deriving DecidableEq

/-- A successfully decoded message: `json.loads` result with
`data.get('command')` and `data.get('data', \x7b\x7d)` extracted. -/
structure ParsedMsg where
  command : Command
  payload : Payload
deriving DecidableEq

/-- The five mutable control fields of `AnalogRacingServer`. -/
structure ControlState where
  current_steering : ℚ
  current_accelerator : ℚ
  current_brake : ℚ
  handbrake_pressed : Bool
  horn_pressed : Bool
deriving DecidableEq

/-- `self.max_steering_angle = 900.0`, set once in `__init__`. -/
def max_steering_angle : ℚ := 900

/-- The all-zero / all-false state the server starts in. -/
def initControl : ControlState :=
  ⟨0, 0, 0, false, false⟩

/-- `max(-self.max_steering_angle, min(self.max_steering_angle, x))`. -/
def clampSteering (x : ℚ) : ℚ :=
  max (-max_steering_angle) (min max_steering_angle x)

/-- `max(0.0, min(1.0, p / 100.0))`. -/
def normalizePedal (p : ℚ) : ℚ :=
  max 0 (min 1 (p / 100))

/-- The `'steering' in payload` block of the `update` branch.  A
non-numeric value raises `TypeError` inside `min`, which aborts the
handler with the state mutated so far (`.error`). -/
def updateSteeringField (p : Payload) (s : ControlState) :
    Except ControlState ControlState :=
  match p.lookup UpdateField.steering with
  | none => .ok s
  | some v =>
    match v.asNum with
    | some x => .ok { s with current_steering := clampSteering x }
    | none => .error s

/-- The `'accelerator' in payload` block of the `update` branch. -/
def updateAcceleratorField (p : Payload) (s : ControlState) :
    Except ControlState ControlState :=
  match p.lookup UpdateField.accelerator with
  | none => .ok s
  | some v =>
    match v.asNum with
    | some x => .ok { s with current_accelerator := normalizePedal x }
    | none => .error s

/-- The `'brake' in payload` block of the `update` branch. -/
def updateBrakeField (p : Payload) (s : ControlState) :
    Except ControlState ControlState :=
  match p.lookup UpdateField.brake with
  | none => .ok s
  | some v =>
    match v.asNum with
    | some x => .ok { s with current_brake := normalizePedal x }
    | none => .error s

/-- The whole `update` branch: the three field blocks in source order.
The boolean records whether the trailing `self.update_controller()`
call was reached (`false` means a `TypeError` was caught by the outer
`except Exception`). -/
def handleUpdate (p : Payload) (s : ControlState) : ControlState × Bool :=
  match updateSteeringField p s with
  | .error t => (t, false)
  | .ok s1 =>
    match updateAcceleratorField p s1 with
    | .error t => (t, false)
    | .ok s2 =>
      match updateBrakeField p s2 with
      | .error t => (t, false)
      | .ok s3 => (s3, true)

/-- Observable calls into the active output device backend:
`reset` is the backend-specific neutralisation done by
`release_all_inputs` (release every held key, or `controller.reset()`),
`apply` is one `update_controller()` projection of a control state. -/
inductive AdapterCall where
  | reset : AdapterCall
  | apply : ControlState → AdapterCall
deriving DecidableEq

/-- `release_all_inputs`: zero every control field, neutralise the
backend, then run `update_controller()` once. -/
def release_all_inputs : ControlState × List AdapterCall :=
  (initControl, [AdapterCall.reset, AdapterCall.apply initControl])

/-- `handle_message`, acting on the control state.  `none` models any
inbound text that `json.loads` rejects (the `except
json.JSONDecodeError` path: log and drop, nothing raised, nothing
closed).  The returned list is the sequence of backend calls made. -/
def handle_message (m : Option ParsedMsg) (s : ControlState) :
    ControlState × List AdapterCall :=
  match m with
  | none => (s, [])
  | some msg =>
    match msg.command with
    | .update =>
      match handleUpdate msg.payload s with
      | (t, true) => (t, [AdapterCall.apply t])
      | (t, false) => (t, [])
    | .handbrake_press =>
      let t := { s with handbrake_pressed := true }
      (t, [AdapterCall.apply t])
    | .handbrake_release =>
      let t := { s with handbrake_pressed := false }
      (t, [AdapterCall.apply t])
    | .horn_press =>
      let t := { s with horn_pressed := true }
      (t, [AdapterCall.apply t])
    | .horn_release =>
      let t := { s with horn_pressed := false }
      (t, [AdapterCall.apply t])
    | .reset => release_all_inputs
    | .unknown => (s, [])

/-- Whole-server state: the registry `self.connected_clients` (clients
as abstract identifiers) plus the control fields. -/
structure ServerState where
  connected_clients : Finset ℕ
  control : ControlState
deriving DecidableEq

/-- State at process start: empty registry, all-zero controls. -/
def initServer : ServerState :=
  ⟨∅, initControl⟩

/-- `register_client`: add the connection to the registry; no control
mutation, no backend call. -/
def register_client (c : ℕ) (st : ServerState) :
    ServerState × List AdapterCall :=
  ({ st with connected_clients := insert c st.connected_clients }, [])

/-- `unregister_client`: discard the connection; if the registry became
empty, run `release_all_inputs`. -/
def unregister_client (c : ℕ) (st : ServerState) :
    ServerState × List AdapterCall :=
  let clients := st.connected_clients.erase c
  if clients = ∅ then
    ({ connected_clients := clients, control := release_all_inputs.1 },
      release_all_inputs.2)
  else
    ({ st with connected_clients := clients }, [])

/-- One observable server event: a connection accepted, a connection
lost (clean close or transport error both end in `unregister_client`),
or one inbound message handled. -/
inductive ServerEvent where
  | connect : ℕ → ServerEvent
  | disconnect : ℕ → ServerEvent
  | message : Option ParsedMsg → ServerEvent

/-- One step of the server on an event. -/
def step (st : ServerState) (e : ServerEvent) :
    ServerState × List AdapterCall :=
  match e with
  | .connect c => register_client c st
  | .disconnect c => unregister_client c st
  | .message m =>
    let r := handle_message m st.control
    ({ st with control := r.1 }, r.2)

/-- Run a sequence of events from process start. -/
def run (es : List ServerEvent) : ServerState :=
  es.foldl (fun st e => (step st e).1) initServer

/-- The keys the keyboard fallback drives: left, right, accelerate,
brake, handbrake, horn. -/
inductive Key where
  | a | d | w | s | space | h
deriving DecidableEq

/-- A synthetic key transition emitted to pyautogui. -/
inductive KeyEvent where
  | down : Key → KeyEvent
  | up : Key → KeyEvent
deriving DecidableEq

/-- `press_key`: emit a key-down and record the key only when it is not
already held. -/
def press_key (k : Key) (held : Finset Key) :
    Finset Key × List KeyEvent :=
  if k ∈ held then (held, []) else (insert k held, [KeyEvent.down k])

/-- `release_key`: emit a key-up and drop the key only when it is
currently held. -/
def release_key (k : Key) (held : Finset Key) :
    Finset Key × List KeyEvent :=
  if k ∈ held then (held.erase k, [KeyEvent.up k]) else (held, [])

/-- Sequence two key operations, accumulating emitted events. -/
def thenKey (r : Finset Key × List KeyEvent)
    (f : Finset Key → Finset Key × List KeyEvent) :
    Finset Key × List KeyEvent :=
  ((f r.1).1, r.2 ++ (f r.1).2)

/-- `update_keyboard_controller`: the steering three-way split (note
that a steering value of exactly ±10 falls through all three guards),
then the accelerator, brake, handbrake and horn key blocks, in source
order. -/
def update_keyboard_controller (s : ControlState) (held : Finset Key) :
    Finset Key × List KeyEvent :=
  let r1 :=
    if |s.current_steering| < 10 then
      thenKey (release_key Key.a held) (release_key Key.d)
    else if s.current_steering < -10 then
      thenKey (release_key Key.d held) (press_key Key.a)
    else if s.current_steering > 10 then
      thenKey (release_key Key.a held) (press_key Key.d)
    else (held, [])
  let r2 := thenKey r1 (fun hd =>
    if s.current_accelerator > 1/10 then press_key Key.w hd
    else release_key Key.w hd)
  let r3 := thenKey r2 (fun hd =>
    if s.current_brake > 1/10 then press_key Key.s hd
    else release_key Key.s hd)
  let r4 := thenKey r3 (fun hd =>
    if s.handbrake_pressed then press_key Key.space hd
    else release_key Key.space hd)
  thenKey r4 (fun hd =>
    if s.horn_pressed then press_key Key.h hd
    else release_key Key.h hd)

/-- Python `int()` on a real value: truncation toward zero. -/
def truncQ (q : ℚ) : ℤ :=
  if 0 ≤ q then ⌊q⌋ else ⌈q⌉

/-- What one `update_vjoy_controller` call writes to the vjoy device:
three axes and two buttons. -/
structure VJoyOut where
  axis_x : ℤ
  axis_y : ℤ
  axis_z : ℤ
  button1 : Bool
  button2 : Bool
deriving DecidableEq

/-- `update_vjoy_controller`: normalise steering, map it to the X axis
via `int((n + 1) / 2 * 32767) + 1`, write the accelerator inverted as
`32768 - (int(a * 32767) + 1)` to Y, and the brake uninverted to Z. -/
def update_vjoy_controller (s : ControlState) : VJoyOut :=
  let steering_normalized :=
    max (-1) (min 1 (s.current_steering / max_steering_angle))
  let steering_vjoy := truncQ ((steering_normalized + 1) / 2 * 32767) + 1
  let accel_vjoy := truncQ (s.current_accelerator * 32767) + 1
  let brake_vjoy := truncQ (s.current_brake * 32767) + 1
  { axis_x := steering_vjoy
    axis_y := 32768 - accel_vjoy
    axis_z := brake_vjoy
    button1 := s.handbrake_pressed
    button2 := s.horn_pressed }

/-- Domain invariant of the five control fields: steering within
`±max_steering_angle`, both pedals within `[0, 1]`, buttons boolean. -/
def ControlInv (s : ControlState) : Prop :=
  -max_steering_angle ≤ s.current_steering ∧
  s.current_steering ≤ max_steering_angle ∧
  0 ≤ s.current_accelerator ∧ s.current_accelerator ≤ 1 ∧
  0 ≤ s.current_brake ∧ s.current_brake ≤ 1 ∧
  (s.handbrake_pressed = true ∨ s.handbrake_pressed = false) ∧
  (s.horn_pressed = true ∨ s.horn_pressed = false)

/-- The four key blocks of `update_keyboard_controller` that follow the
steering split (accelerator, brake, handbrake, horn), as a map on the
held-key set alone. -/
def pedalAdjust (s : ControlState) (hd : Finset Key) : Finset Key :=
  let h2 := if 1/10 < s.current_accelerator then insert Key.w hd
            else hd.erase Key.w
  let h3 := if 1/10 < s.current_brake then insert Key.s h2
            else h2.erase Key.s
  let h4 := if s.handbrake_pressed then insert Key.space h3
            else h3.erase Key.space
  if s.horn_pressed then insert Key.h h4 else h4.erase Key.h

lemma neg_le_clampSteering (x : ℚ) :
    -max_steering_angle ≤ clampSteering x :=
  le_max_left _ _

lemma clampSteering_le (x : ℚ) : clampSteering x ≤ max_steering_angle :=
  max_le (by norm_num [max_steering_angle]) (min_le_left _ _)

lemma normalizePedal_nonneg (p : ℚ) : 0 ≤ normalizePedal p :=
  le_max_left _ _

lemma normalizePedal_le_one (p : ℚ) : normalizePedal p ≤ 1 :=
  max_le (by norm_num) (min_le_left _ _)

lemma clampSteering_overflow :
    clampSteering (max_steering_angle + 50) = max_steering_angle := by
  unfold clampSteering max_steering_angle
  rw [min_eq_left (by norm_num), max_eq_right (by norm_num)]

lemma clampSteering_underflow :
    clampSteering (-max_steering_angle - 50) = -max_steering_angle := by
  unfold clampSteering max_steering_angle
  rw [min_eq_right (by norm_num), max_eq_left (by norm_num)]

lemma normalizePedal_150 : normalizePedal 150 = 1 := by
  unfold normalizePedal
  rw [min_eq_left (by norm_num), max_eq_right (by norm_num)]

lemma normalizePedal_neg10 : normalizePedal (-10) = 0 := by
  unfold normalizePedal
  rw [min_eq_right (by norm_num), max_eq_left (by norm_num)]

/-- C1: an `update` message clamps every present field at ingestion:
steering is clamped into `[-max_steering_angle, max_steering_angle]`
(with the two overflow cases landing on the bounds), and each pedal is
divided by 100 and clamped into `[0, 1]` (with `150 ↦ 1` and
`-10 ↦ 0`). -/
theorem C1_update_clamps_at_ingestion (s : ControlState) (x a b : ℚ) :
    (handle_message (some ⟨Command.update,
        [(UpdateField.steering, JValue.num x),
         (UpdateField.accelerator, JValue.num a),
         (UpdateField.brake, JValue.num b)]⟩) s).1 =
      { current_steering := clampSteering x
        current_accelerator := normalizePedal a
        current_brake := normalizePedal b
        handbrake_pressed := s.handbrake_pressed
        horn_pressed := s.horn_pressed } ∧
    (-max_steering_angle ≤ clampSteering x ∧
      clampSteering x ≤ max_steering_angle) ∧
    (0 ≤ normalizePedal a ∧ normalizePedal a ≤ 1) ∧
    (0 ≤ normalizePedal b ∧ normalizePedal b ≤ 1) ∧
    clampSteering (max_steering_angle + 50) = max_steering_angle ∧
    clampSteering (-max_steering_angle - 50) = -max_steering_angle ∧
    normalizePedal 150 = 1 ∧
    normalizePedal (-10) = 0 :=
  ⟨rfl, ⟨neg_le_clampSteering x, clampSteering_le x⟩,
    ⟨normalizePedal_nonneg a, normalizePedal_le_one a⟩,
    ⟨normalizePedal_nonneg b, normalizePedal_le_one b⟩,
    clampSteering_overflow, clampSteering_underflow,
    normalizePedal_150, normalizePedal_neg10⟩

/-- C4: an `update` whose data holds only `brake` leaves steering,
accelerator, handbrake and horn exactly as they were, and sets only the
brake (to its normalized value). -/
theorem C4_partial_update_frame (s : ControlState) (b : ℚ) :
    (handle_message (some ⟨Command.update,
        [(UpdateField.brake, JValue.num b)]⟩) s).1.current_steering =
      s.current_steering ∧
    (handle_message (some ⟨Command.update,
        [(UpdateField.brake, JValue.num b)]⟩) s).1.current_accelerator =
      s.current_accelerator ∧
    (handle_message (some ⟨Command.update,
        [(UpdateField.brake, JValue.num b)]⟩) s).1.handbrake_pressed =
      s.handbrake_pressed ∧
    (handle_message (some ⟨Command.update,
        [(UpdateField.brake, JValue.num b)]⟩) s).1.horn_pressed =
      s.horn_pressed ∧
    (handle_message (some ⟨Command.update,
        [(UpdateField.brake, JValue.num b)]⟩) s).1.current_brake =
      normalizePedal b :=
  ⟨rfl, rfl, rfl, rfl, rfl⟩

/-- C5: input that `json.loads` rejects (modelled by `none`) leaves the
whole control state unchanged and makes no backend call; the embedded
handler is a total function, so nothing is raised and the connection is
not touched. -/
theorem C5_malformed_input_dropped (s : ControlState) :
    handle_message none s = (s, []) :=
  rfl

/-- C9: a `reset` command zeroes every field, and a second `reset`
right after yields the identical all-zero/false state. -/
theorem C9_reset_idempotent (s : ControlState) :
    (handle_message (some ⟨Command.reset, []⟩) s).1 = initControl ∧
    (handle_message (some ⟨Command.reset, []⟩)
        (handle_message (some ⟨Command.reset, []⟩) s).1).1 = initControl :=
  ⟨rfl, rfl⟩

/-- C10: an `update` carrying a numeric `steering` and a non-numeric
`accelerator` first writes the clamped steering, then aborts on the
`TypeError`: the caller sees no exception, no backend apply happens,
yet the state was already mutated. -/
theorem C10_update_error_not_atomic (s : ControlState) (x : ℚ) :
    handle_message (some ⟨Command.update,
        [(UpdateField.steering, JValue.num x),
         (UpdateField.accelerator, JValue.nonNumeric)]⟩) s =
      ({ s with current_steering := clampSteering x }, []) :=
  rfl

lemma controlInv_initControl : ControlInv initControl := by
  unfold ControlInv initControl max_steering_angle
  norm_num

/-- State carried by a field-stage outcome, whether it succeeded or
aborted. -/
def exceptState : Except ControlState ControlState → ControlState
  | .ok t => t
  | .error t => t

lemma controlInv_updateSteeringField (p : Payload) {s : ControlState}
    (h : ControlInv s) :
    ControlInv (exceptState (updateSteeringField p s)) := by
  cases hl : p.lookup UpdateField.steering with
  | none => simpa [updateSteeringField, hl, exceptState] using h
  | some v =>
    cases hv : v.asNum with
    | none => simpa [updateSteeringField, hl, hv, exceptState] using h
    | some x =>
      obtain ⟨h1, h2, h3, h4, h5, h6, h7, h8⟩ := h
      simp only [updateSteeringField, hl, hv, exceptState]
      exact ⟨neg_le_clampSteering x, clampSteering_le x,
        h3, h4, h5, h6, h7, h8⟩

lemma controlInv_updateAcceleratorField (p : Payload) {s : ControlState}
    (h : ControlInv s) :
    ControlInv (exceptState (updateAcceleratorField p s)) := by
  cases hl : p.lookup UpdateField.accelerator with
  | none => simpa [updateAcceleratorField, hl, exceptState] using h
  | some v =>
    cases hv : v.asNum with
    | none => simpa [updateAcceleratorField, hl, hv, exceptState] using h
    | some x =>
      obtain ⟨h1, h2, h3, h4, h5, h6, h7, h8⟩ := h
      simp only [updateAcceleratorField, hl, hv, exceptState]
      exact ⟨h1, h2, normalizePedal_nonneg x, normalizePedal_le_one x,
        h5, h6, h7, h8⟩

lemma controlInv_updateBrakeField (p : Payload) {s : ControlState}
    (h : ControlInv s) :
    ControlInv (exceptState (updateBrakeField p s)) := by
  cases hl : p.lookup UpdateField.brake with
  | none => simpa [updateBrakeField, hl, exceptState] using h
  | some v =>
    cases hv : v.asNum with
    | none => simpa [updateBrakeField, hl, hv, exceptState] using h
    | some x =>
      obtain ⟨h1, h2, h3, h4, h5, h6, h7, h8⟩ := h
      simp only [updateBrakeField, hl, hv, exceptState]
      exact ⟨h1, h2, h3, h4, normalizePedal_nonneg x,
        normalizePedal_le_one x, h7, h8⟩

lemma controlInv_handleUpdate (p : Payload) {s : ControlState}
    (h : ControlInv s) : ControlInv (handleUpdate p s).1 := by
  cases hs : updateSteeringField p s with
  | error t =>
    have h0 := controlInv_updateSteeringField p h
    rw [hs] at h0
    simpa [handleUpdate, hs, exceptState] using h0
  | ok s1 =>
    have hi1 : ControlInv s1 := by
      have h0 := controlInv_updateSteeringField p h
      rw [hs] at h0
      simpa [exceptState] using h0
    cases ha : updateAcceleratorField p s1 with
    | error t =>
      have h0 := controlInv_updateAcceleratorField p hi1
      rw [ha] at h0
      simpa [handleUpdate, hs, ha, exceptState] using h0
    | ok s2 =>
      have hi2 : ControlInv s2 := by
        have h0 := controlInv_updateAcceleratorField p hi1
        rw [ha] at h0
        simpa [exceptState] using h0
      cases hb : updateBrakeField p s2 with
      | error t =>
        have h0 := controlInv_updateBrakeField p hi2
        rw [hb] at h0
        simpa [handleUpdate, hs, ha, hb, exceptState] using h0
      | ok s3 =>
        have h0 := controlInv_updateBrakeField p hi2
        rw [hb] at h0
        simpa [handleUpdate, hs, ha, hb, exceptState] using h0

lemma controlInv_handle_message (m : Option ParsedMsg) {s : ControlState}
    (h : ControlInv s) : ControlInv (handle_message m s).1 := by
  obtain ⟨h1, h2, h3, h4, h5, h6, h7, h8⟩ := h
  rcases m with _ | ⟨cmd, p⟩
  · exact ⟨h1, h2, h3, h4, h5, h6, h7, h8⟩
  cases cmd with
  | update =>
    have hInv :=
      controlInv_handleUpdate p ⟨h1, h2, h3, h4, h5, h6, h7, h8⟩
    rcases hu : handleUpdate p s with ⟨t, b⟩
    rw [hu] at hInv
    cases b <;> simpa [handle_message, hu] using hInv
  | handbrake_press => exact ⟨h1, h2, h3, h4, h5, h6, Or.inl rfl, h8⟩
  | handbrake_release => exact ⟨h1, h2, h3, h4, h5, h6, Or.inr rfl, h8⟩
  | horn_press => exact ⟨h1, h2, h3, h4, h5, h6, h7, Or.inl rfl⟩
  | horn_release => exact ⟨h1, h2, h3, h4, h5, h6, h7, Or.inr rfl⟩
  | reset => exact controlInv_initControl
  | unknown => exact ⟨h1, h2, h3, h4, h5, h6, h7, h8⟩

lemma controlInv_step (e : ServerEvent) {st : ServerState}
    (h : ControlInv st.control) : ControlInv ((step st e).1).control := by
  cases e with
  | connect c => exact h
  | disconnect c =>
    simp only [step, unregister_client]
    split
    · exact controlInv_initControl
    · exact h
  | message m => exact controlInv_handle_message m h

lemma controlInv_run_aux (es : List ServerEvent) :
    ∀ st : ServerState, ControlInv st.control →
      ControlInv (es.foldl (fun st e => (step st e).1) st).control := by
  induction es with
  | nil => intro st h; exact h
  | cons e es ih =>
    intro st h
    exact ih _ (controlInv_step e h)

/-- C2: starting from the initial all-zero/false state, after any
sequence of connects, disconnects and handled messages every control
field is within its declared domain: steering in
`[-max_steering_angle, max_steering_angle]`, both pedals in `[0, 1]`,
and the two button fields boolean. -/
theorem C2_domain_invariant (es : List ServerEvent) :
    ControlInv (run es).control :=
  controlInv_run_aux es initServer controlInv_initControl

/-- C3: disconnecting the sole connected client empties the registry,
zeroes the control state and performs the backend reset-then-apply
sequence; a disconnect that leaves the registry non-empty changes the
registry only and performs no reset. -/
theorem C3_disconnect_triggers_reset :
    (∀ (c : ℕ) (s : ControlState),
      unregister_client c ⟨{c}, s⟩ =
        (⟨∅, initControl⟩,
          [AdapterCall.reset, AdapterCall.apply initControl])) ∧
    ∀ (c : ℕ) (st : ServerState),
      st.connected_clients.erase c ≠ ∅ →
      unregister_client c st =
        ({ st with connected_clients := st.connected_clients.erase c },
          []) := by
  constructor
  · intro c s
    simp [unregister_client, Finset.erase_singleton, release_all_inputs]
  · intro c st h
    simp [unregister_client, h]

/-- Witness for C3 at a two-client registry: removing client 0 leaves
client 1 and resets nothing. -/
theorem C3_disconnect_triggers_reset_witness :
    ({0, 1} : Finset ℕ).erase 0 ≠ ∅ ∧
    unregister_client 0 ⟨{0, 1}, initControl⟩ =
      (⟨({0, 1} : Finset ℕ).erase 0, initControl⟩, []) :=
  ⟨by decide,
    C3_disconnect_triggers_reset.2 0 ⟨{0, 1}, initControl⟩ (by decide)⟩

lemma truncQ_nonneg {q : ℚ} (h : 0 ≤ q) : 0 ≤ truncQ q := by
  unfold truncQ
  rw [if_pos h]
  exact Int.floor_nonneg.mpr h

lemma truncQ_le_of_le {q : ℚ} {n : ℤ} (h0 : 0 ≤ q) (h : q ≤ (n : ℚ)) :
    truncQ q ≤ n := by
  unfold truncQ
  rw [if_pos h0]
  exact le_trans (Int.floor_le_floor h) (le_of_eq (Int.floor_intCast n))

/-- C8 counterexample: with the accelerator at rest (value `0`, so the
raw axis value is `1`), the code writes `32768 - 1 = 32767` to the
accelerator axis, while the claimed inversion `AXIS_MAX - value` with
`AXIS_MAX = 32767` would give `32766`. -/
theorem C8_accelerator_inversion_counterexample :
    (update_vjoy_controller initControl).axis_y ≠
      32767 - (truncQ (initControl.current_accelerator * 32767) + 1) := by
  norm_num [update_vjoy_controller, initControl, truncQ, max_steering_angle]

/-- C8 amended: the steering axis value is
`trunc((normalized + 1) / 2 * 32767) + 1` with the normalized steering
clamped to `[-1, 1]`, brake is on a third un-inverted axis, but the
accelerator inversion is `(AXIS_MAX + 1) - value = 32768 - value`, not
`AXIS_MAX - value`.  In addition, under the pedal domain hypotheses the
written axis values stay in range: steering in `[1, 32768]` and the
inverted accelerator in `[0, 32767]`. -/
theorem C8_vjoy_axis_mapping (s : ControlState)
    (ha0 : 0 ≤ s.current_accelerator) (ha1 : s.current_accelerator ≤ 1) :
    ((update_vjoy_controller s).axis_x =
        truncQ ((max (-1) (min 1 (s.current_steering / max_steering_angle))
          + 1) / 2 * 32767) + 1 ∧
      (update_vjoy_controller s).axis_y =
        32768 - (truncQ (s.current_accelerator * 32767) + 1) ∧
      (update_vjoy_controller s).axis_z =
        truncQ (s.current_brake * 32767) + 1) ∧
    (1 ≤ (update_vjoy_controller s).axis_x ∧
      (update_vjoy_controller s).axis_x ≤ 32768) ∧
    (0 ≤ (update_vjoy_controller s).axis_y ∧
      (update_vjoy_controller s).axis_y ≤ 32767) := by
  have hn1 : (-1 : ℚ) ≤
      max (-1) (min 1 (s.current_steering / max_steering_angle)) :=
    le_max_left _ _
  have hn2 : max (-1) (min 1 (s.current_steering / max_steering_angle))
      ≤ 1 :=
    max_le (by norm_num) (min_le_left _ _)
  have hq0 : (0 : ℚ) ≤
      (max (-1) (min 1 (s.current_steering / max_steering_angle)) + 1)
        / 2 * 32767 := by linarith
  have hq1 : (max (-1) (min 1 (s.current_steering / max_steering_angle))
      + 1) / 2 * 32767 ≤ ((32767 : ℤ) : ℚ) := by
    push_cast
    linarith
  have ha2 : (0 : ℚ) ≤ s.current_accelerator * 32767 := by linarith
  have ha3 : s.current_accelerator * 32767 ≤ ((32767 : ℤ) : ℚ) := by
    push_cast
    linarith
  have hx0 := truncQ_nonneg hq0
  have hx1 := truncQ_le_of_le hq0 hq1
  have hy0 := truncQ_nonneg ha2
  have hy1 := truncQ_le_of_le ha2 ha3
  refine ⟨⟨rfl, rfl, rfl⟩, ⟨?_, ?_⟩, ⟨?_, ?_⟩⟩ <;>
    · show _ ≤ _
      simp only [update_vjoy_controller]
      omega

/-- Witness for C8 at the initial state (accelerator `0`). -/
theorem C8_vjoy_axis_mapping_witness :
    (0 : ℚ) ≤ initControl.current_accelerator ∧
    initControl.current_accelerator ≤ 1 ∧
    (update_vjoy_controller initControl).axis_y =
      32768 - (truncQ (initControl.current_accelerator * 32767) + 1) ∧
    0 ≤ (update_vjoy_controller initControl).axis_y :=
  ⟨by norm_num [initControl], by norm_num [initControl],
    (C8_vjoy_axis_mapping initControl (by norm_num [initControl])
      (by norm_num [initControl])).1.2.1,
    (C8_vjoy_axis_mapping initControl (by norm_num [initControl])
      (by norm_num [initControl])).2.2.1⟩

lemma press_key_eq (k : Key) (held : Finset Key) :
    press_key k held =
      (insert k held, if k ∈ held then [] else [KeyEvent.down k]) := by
  unfold press_key
  split
  · rename_i hk
    rw [Finset.insert_eq_self.mpr hk]
  · rfl

lemma release_key_eq (k : Key) (held : Finset Key) :
    release_key k held =
      (held.erase k, if k ∈ held then [KeyEvent.up k] else []) := by
  unfold release_key
  split
  · rfl
  · rename_i hk
    rw [Finset.erase_eq_self.mpr hk]

lemma thenKey_fst (r : Finset Key × List KeyEvent)
    (f : Finset Key → Finset Key × List KeyEvent) :
    (thenKey r f).1 = (f r.1).1 :=
  rfl

lemma update_keyboard_fst (s : ControlState) (held : Finset Key) :
    (update_keyboard_controller s held).1 =
      pedalAdjust s
        (if |s.current_steering| < 10 then (held.erase Key.a).erase Key.d
         else if s.current_steering < -10 then
           insert Key.a (held.erase Key.d)
         else if s.current_steering > 10 then
           insert Key.d (held.erase Key.a)
         else held) := by
  simp only [update_keyboard_controller, pedalAdjust, thenKey_fst,
    apply_ite (@Prod.fst (Finset Key) (List KeyEvent)),
    press_key_eq, release_key_eq]

lemma mem_pedalAdjust_a (s : ControlState) (hd : Finset Key) :
    Key.a ∈ pedalAdjust s hd ↔ Key.a ∈ hd := by
  unfold pedalAdjust
  split_ifs <;> simp

lemma mem_pedalAdjust_d (s : ControlState) (hd : Finset Key) :
    Key.d ∈ pedalAdjust s hd ↔ Key.d ∈ hd := by
  unfold pedalAdjust
  split_ifs <;> simp

lemma mem_pedalAdjust_w (s : ControlState) (hd : Finset Key) :
    Key.w ∈ pedalAdjust s hd ↔ 1/10 < s.current_accelerator := by
  unfold pedalAdjust
  split_ifs <;> simp <;> linarith

lemma mem_pedalAdjust_s (s : ControlState) (hd : Finset Key) :
    Key.s ∈ pedalAdjust s hd ↔ 1/10 < s.current_brake := by
  unfold pedalAdjust
  split_ifs <;> simp <;> linarith

/-- C6 counterexample: at a steering angle of exactly `10` — positive
and not inside the deadzone `|angle| < 10` — the claim requires the
right key pressed and the left key released, but all three code guards
are false, so from a held set containing the left key (reachable by a
prior steering of `-50`) the left key stays held and the right key is
never pressed. -/
theorem C6_counterexample :
    Key.d ∉ (update_keyboard_controller ⟨10, 0, 0, false, false⟩
      {Key.a}).1 ∧
    Key.a ∈ (update_keyboard_controller ⟨10, 0, 0, false, false⟩
      {Key.a}).1 := by
  rw [update_keyboard_fst]
  constructor
  · rw [mem_pedalAdjust_d]
    norm_num [abs_lt]
    decide
  · rw [mem_pedalAdjust_a]
    norm_num [abs_lt]

/-- C6 amended: the keyboard apply step discretizes steering into three
states away from the boundary — `|angle| < 10` releases both left and
right, `angle < -10` presses left and releases right, `angle > 10`
presses right and releases left — while at exactly `±10` every guard
fails and the left/right keys are left unchanged; the accelerator and
brake keys are held exactly when the pedal value exceeds `0.1`. -/
theorem C6_keyboard_discretization (s : ControlState)
    (held : Finset Key) :
    ((|s.current_steering| < 10 →
        Key.a ∉ (update_keyboard_controller s held).1 ∧
        Key.d ∉ (update_keyboard_controller s held).1) ∧
      (s.current_steering < -10 →
        Key.a ∈ (update_keyboard_controller s held).1 ∧
        Key.d ∉ (update_keyboard_controller s held).1) ∧
      (s.current_steering > 10 →
        Key.d ∈ (update_keyboard_controller s held).1 ∧
        Key.a ∉ (update_keyboard_controller s held).1) ∧
      ((s.current_steering = 10 ∨ s.current_steering = -10) →
        (Key.a ∈ (update_keyboard_controller s held).1 ↔ Key.a ∈ held) ∧
        (Key.d ∈ (update_keyboard_controller s held).1 ↔
          Key.d ∈ held))) ∧
    (Key.w ∈ (update_keyboard_controller s held).1 ↔
      1/10 < s.current_accelerator) ∧
    (Key.s ∈ (update_keyboard_controller s held).1 ↔
      1/10 < s.current_brake) := by
  rw [update_keyboard_fst]
  refine ⟨⟨?_, ?_, ?_, ?_⟩, mem_pedalAdjust_w s _, mem_pedalAdjust_s s _⟩
  · intro h
    rw [if_pos h]
    constructor
    · rw [mem_pedalAdjust_a]
      simp
    · rw [mem_pedalAdjust_d]
      simp
  · intro h
    have h1 : ¬|s.current_steering| < 10 := by
      rw [abs_lt]
      rintro ⟨hl, hr⟩
      linarith
    rw [if_neg h1, if_pos h]
    constructor
    · rw [mem_pedalAdjust_a]
      simp
    · rw [mem_pedalAdjust_d]
      simp
  · intro h
    have h1 : ¬|s.current_steering| < 10 := by
      rw [abs_lt]
      rintro ⟨hl, hr⟩
      linarith
    have h2 : ¬s.current_steering < -10 := by linarith
    rw [if_neg h1, if_neg h2, if_pos h]
    constructor
    · rw [mem_pedalAdjust_d]
      simp
    · rw [mem_pedalAdjust_a]
      simp
  · intro h
    have h1 : ¬|s.current_steering| < 10 := by
      rw [abs_lt]
      rcases h with h | h <;> rw [h] <;> norm_num
    have h2 : ¬s.current_steering < -10 := by
      rcases h with h | h <;> rw [h] <;> norm_num
    have h3 : ¬s.current_steering > 10 := by
      rcases h with h | h <;> rw [h] <;> norm_num
    rw [if_neg h1, if_neg h2, if_neg h3]
    exact ⟨mem_pedalAdjust_a s held, mem_pedalAdjust_d s held⟩

/-- Witness for C6 amended at steering `-50` from no held keys: the
left key ends up pressed. -/
theorem C6_keyboard_discretization_witness :
    (⟨-50, 0, 0, false, false⟩ : ControlState).current_steering < -10 ∧
    Key.a ∈ (update_keyboard_controller ⟨-50, 0, 0, false, false⟩ ∅).1 :=
  ⟨by norm_num,
    ((C6_keyboard_discretization ⟨-50, 0, 0, false, false⟩ ∅).1.2.1
      (by norm_num)).1⟩

/-- C7: the keyboard adapter never emits a key-down for a key already
in its held set nor a key-up for a key outside it, and the concrete
sequence steering `50` then steering `60` from no held keys emits
exactly one down-transition of the right key. -/
theorem C7_transition_dedup :
    (∀ (held : Finset Key) (k : Key), k ∈ held →
      (press_key k held).2 = []) ∧
    (∀ (held : Finset Key) (k : Key), k ∉ held →
      (release_key k held).2 = []) ∧
    ((update_keyboard_controller ⟨50, 0, 0, false, false⟩ ∅).2 ++
      (update_keyboard_controller ⟨60, 0, 0, false, false⟩
        (update_keyboard_controller ⟨50, 0, 0, false, false⟩ ∅).1).2).count
      (KeyEvent.down Key.d) = 1 := by
  refine ⟨?_, ?_, ?_⟩
  · intro held k h
    simp [press_key, h]
  · intro held k h
    simp [release_key, h]
  · have h1 : update_keyboard_controller ⟨50, 0, 0, false, false⟩ ∅ =
        ({Key.d}, [KeyEvent.down Key.d]) := by
      norm_num [update_keyboard_controller, thenKey, press_key_eq,
        release_key_eq, abs_lt, Finset.erase_eq_self]
      and_intros <;> decide
    have h2 : update_keyboard_controller ⟨60, 0, 0, false, false⟩
        {Key.d} = ({Key.d}, []) := by
      norm_num [update_keyboard_controller, thenKey, press_key_eq,
        release_key_eq, abs_lt, Finset.erase_eq_self]
      and_intros <;> decide
    rw [h1]
    dsimp only
    rw [h2]
    decide

/-- Witness for C7: pressing an already-held key emits nothing. -/
theorem C7_transition_dedup_witness :
    Key.a ∈ ({Key.a} : Finset Key) ∧
    (press_key Key.a {Key.a}).2 = [] :=
  ⟨by decide, C7_transition_dedup.1 {Key.a} Key.a (by decide)⟩

end RacingServer
